import Mathlib

/-!
Verification of the AutoShield on-chain verification record store
(`AutoShieldVerification` Solidity contract): a shallow embedding of the
contract's state and its four external functions, plus a trace layer for
reachable-state invariants.

Addresses and unsigned integers are modelled as `Nat` (the zero address is
`0`); the status enum travels as its `uint8` code.  A reverting call is an
`Except.error`; Solidity's revert semantics (no state change on failure) are
captured by `applyWrite`, which keeps the pre-state on an error.
-/

/-- Revert reasons of the contract: `invalidOwner` from the `Ownable`
constructor, `unauthorized` from the `onlyOwner` modifier, `invalidStatus`
from `require(status <= 2, "Invalid status")`. -/
inductive ContractError where
  | invalidOwner
  | unauthorized
  | invalidStatus
deriving DecidableEq, Repr

/-- The `Verification` struct: status code, attestation hash, timestamp of
the last check, confidence score. -/
structure Verification where
  status : Nat
  attestationHash : String
  lastChecked : Nat
  confidenceScore : Nat
deriving DecidableEq, Repr

/-- Solidity's zero-value for the `Verification` struct, returned for any
mapping key that was never written. -/
def Verification.zero : Verification := ⟨0, "", 0, 0⟩

/-- Contract storage: the owner (from `Ownable`), `_verificationCounter`,
and the four per-address mappings.  Solidity mappings are total functions
with zero-value defaults, so unwritten keys map to `Verification.zero`
resp. the empty array. -/
structure ContractState where
  owner : Nat
  verificationCounter : Nat
  verifications : Nat → Verification
  verificationTimestamps : Nat → List Nat
  verificationStatuses : Nat → List Nat
  verificationConfidenceScores : Nat → List Nat

/-- Modelled from the spec: the `constructor(address initialOwner)
Ownable(initialOwner)` delegates to OpenZeppelin's `Ownable`, whose source
is not part of this repository.  Per the spec's Access Authority section,
construction from a zero/invalid authority identity fails with
`InvalidOwner`; otherwise exactly the supplied address becomes the owner
and all storage starts at its zero values. -/
def deployContract (initialOwner : Nat) : Except ContractError ContractState :=
  if initialOwner = 0 then
    .error .invalidOwner
  else
    .ok { owner := initialOwner
          verificationCounter := 0
          verifications := fun _ => Verification.zero
          verificationTimestamps := fun _ => []
          verificationStatuses := fun _ => []
          verificationConfidenceScores := fun _ => [] }

/-- Embeds `getVerificationStatus(address user)`: returns the current record's
fields `(status, attestationHash, lastChecked, confidenceScore)`. -/
def getVerificationStatus (s : ContractState) (user : Nat) :
    Nat × String × Nat × Nat :=
  let v := s.verifications user
  (v.status, v.attestationHash, v.lastChecked, v.confidenceScore)

/-- Embeds `getVerificationHistory(address user)`: returns the three parallel
history arrays `(timestamps, statuses, confidenceScores)`. -/
def getVerificationHistory (s : ContractState) (user : Nat) :
    List Nat × List Nat × List Nat :=
  (s.verificationTimestamps user,
   s.verificationStatuses user,
   s.verificationConfidenceScores user)

/-- Embeds `getVerificationCount()`: returns `_verificationCounter`. -/
def getVerificationCount (s : ContractState) : Nat :=
  s.verificationCounter

/-- The body of `updateVerification` after both guards have passed: the
current record for `user` is overwritten with the new values and
`block.timestamp`, one row is pushed onto each of the three history
arrays for `user`, and `_verificationCounter` is incremented. -/
def writeEffect (s : ContractState) (blockTimestamp user status : Nat)
    (attestationHash : String) (confidenceScore : Nat) : ContractState :=
  { s with
    verifications := fun a =>
      if a = user then
        ⟨status, attestationHash, blockTimestamp, confidenceScore⟩
      else s.verifications a
    verificationTimestamps := fun a =>
      if a = user then s.verificationTimestamps a ++ [blockTimestamp]
      else s.verificationTimestamps a
    verificationStatuses := fun a =>
      if a = user then s.verificationStatuses a ++ [status]
      else s.verificationStatuses a
    verificationConfidenceScores := fun a =>
      if a = user then s.verificationConfidenceScores a ++ [confidenceScore]
      else s.verificationConfidenceScores a
    verificationCounter := s.verificationCounter + 1 }

/-- Embeds `updateVerification(address user, uint8 status, string attestationHash,
uint256 confidenceScore)`.  The `onlyOwner` modifier (from `Ownable`, per
the spec's Access Authority section) runs before the function body and
reverts for any non-owner caller; then `require(status <= 2)` rejects
out-of-range status codes; then the body performs `writeEffect`. -/
def updateVerification (s : ContractState) (sender blockTimestamp user status : Nat)
    (attestationHash : String) (confidenceScore : Nat) :
    Except ContractError ContractState :=
  if sender = s.owner then
    if status ≤ 2 then
      .ok (writeEffect s blockTimestamp user status attestationHash confidenceScore)
    else
      .error .invalidStatus
  else
    .error .unauthorized

/-- The arguments of one `updateVerification` transaction, together with
its sender and the block timestamp at which it executes. -/
structure WriteCall where
  sender : Nat
  blockTimestamp : Nat
  user : Nat
  status : Nat
  attestationHash : String
  confidenceScore : Nat
deriving DecidableEq, Repr

/-- Executing one transaction against the chain state: a revert leaves the
state exactly as it was (EVM revert semantics). -/
def applyWrite (s : ContractState) (c : WriteCall) : ContractState :=
  match updateVerification s c.sender c.blockTimestamp c.user c.status
      c.attestationHash c.confidenceScore with
  | .ok s' => s'
  | .error _ => s

/-- Whether a transaction succeeds (does not revert) against state `s`. -/
def writeSucceeds (s : ContractState) (c : WriteCall) : Bool :=
  match updateVerification s c.sender c.blockTimestamp c.user c.status
      c.attestationHash c.confidenceScore with
  | .ok _ => true
  | .error _ => false

/-- Executing a sequence of transactions in submission order. -/
def execWrites (s : ContractState) (cs : List WriteCall) : ContractState :=
  cs.foldl applyWrite s

/-- Number of successful writes in a transaction sequence starting from `s`. -/
def countSuccessful : ContractState → List WriteCall → Nat
  | _, [] => 0
  | s, c :: cs =>
      (if writeSucceeds s c then 1 else 0) + countSuccessful (applyWrite s c) cs

/-- The `(timestamp, status, confidenceScore)` payloads of the successful
writes targeting key `k`, in execution order, for a transaction sequence
starting from `s`. -/
def successfulWritesTo (k : Nat) : ContractState → List WriteCall → List (Nat × Nat × Nat)
  | _, [] => []
  | s, c :: cs =>
      (if writeSucceeds s c && (c.user == k) then
        [(c.blockTimestamp, c.status, c.confidenceScore)]
      else []) ++ successfulWritesTo k (applyWrite s c) cs

/-! ### Basic lemmas about single calls -/

lemma updateVerification_ok (s : ContractState) (sender t user status : Nat)
    (h : String) (score : Nat) (hs : sender = s.owner) (hst : status ≤ 2) :
    updateVerification s sender t user status h score =
      .ok (writeEffect s t user status h score) := by
  simp [updateVerification, hs, hst]

lemma updateVerification_unauthorized (s : ContractState) (sender t user status : Nat)
    (h : String) (score : Nat) (hs : sender ≠ s.owner) :
    updateVerification s sender t user status h score = .error .unauthorized := by
  simp [updateVerification, hs]

lemma updateVerification_invalidStatus (s : ContractState) (sender t user status : Nat)
    (h : String) (score : Nat) (hs : sender = s.owner) (hst : 2 < status) :
    updateVerification s sender t user status h score = .error .invalidStatus := by
  simp [updateVerification, hs, Nat.not_le_of_lt hst]

lemma writeSucceeds_iff (s : ContractState) (c : WriteCall) :
    writeSucceeds s c = true ↔ c.sender = s.owner ∧ c.status ≤ 2 := by
  unfold writeSucceeds updateVerification
  by_cases hs : c.sender = s.owner <;> by_cases hst : c.status ≤ 2 <;>
    simp [hs, hst]

lemma applyWrite_of_ok (s : ContractState) (c : WriteCall)
    (hs : c.sender = s.owner) (hst : c.status ≤ 2) :
    applyWrite s c =
      writeEffect s c.blockTimestamp c.user c.status c.attestationHash
        c.confidenceScore := by
  unfold applyWrite
  rw [updateVerification_ok s c.sender c.blockTimestamp c.user c.status
    c.attestationHash c.confidenceScore hs hst]

lemma applyWrite_of_fail (s : ContractState) (c : WriteCall)
    (hfail : writeSucceeds s c = false) : applyWrite s c = s := by
  unfold applyWrite
  unfold writeSucceeds at hfail
  cases hup : updateVerification s c.sender c.blockTimestamp c.user c.status
      c.attestationHash c.confidenceScore with
  | ok s' => rw [hup] at hfail; simp at hfail
  | error e => rfl

lemma applyWrite_owner (s : ContractState) (c : WriteCall) :
    (applyWrite s c).owner = s.owner := by
  by_cases hsucc : writeSucceeds s c = true
  · obtain ⟨hs, hst⟩ := (writeSucceeds_iff s c).mp hsucc
    rw [applyWrite_of_ok s c hs hst]
    rfl
  · rw [applyWrite_of_fail s c (by simpa using hsucc)]

lemma execWrites_owner (s : ContractState) (cs : List WriteCall) :
    (execWrites s cs).owner = s.owner := by
  induction cs generalizing s with
  | nil => rfl
  | cons c cs ih =>
      show (execWrites (applyWrite s c) cs).owner = s.owner
      rw [ih (applyWrite s c), applyWrite_owner]

/-! ### Effect of one successful write on each observable -/

lemma writeEffect_verifications_self (s : ContractState) (t user status : Nat)
    (h : String) (score : Nat) :
    (writeEffect s t user status h score).verifications user =
      ⟨status, h, t, score⟩ := by
  simp [writeEffect]

lemma writeEffect_verifications_other (s : ContractState) (t user status : Nat)
    (h : String) (score : Nat) (k : Nat) (hk : k ≠ user) :
    (writeEffect s t user status h score).verifications k = s.verifications k := by
  simp [writeEffect, hk]

lemma writeEffect_timestamps (s : ContractState) (t user status : Nat)
    (h : String) (score : Nat) (k : Nat) :
    (writeEffect s t user status h score).verificationTimestamps k =
      if k = user then s.verificationTimestamps k ++ [t]
      else s.verificationTimestamps k := rfl

lemma writeEffect_statuses (s : ContractState) (t user status : Nat)
    (h : String) (score : Nat) (k : Nat) :
    (writeEffect s t user status h score).verificationStatuses k =
      if k = user then s.verificationStatuses k ++ [status]
      else s.verificationStatuses k := rfl

lemma writeEffect_scores (s : ContractState) (t user status : Nat)
    (h : String) (score : Nat) (k : Nat) :
    (writeEffect s t user status h score).verificationConfidenceScores k =
      if k = user then s.verificationConfidenceScores k ++ [score]
      else s.verificationConfidenceScores k := rfl

lemma applyWrite_counter (s : ContractState) (c : WriteCall) :
    (applyWrite s c).verificationCounter =
      s.verificationCounter + (if writeSucceeds s c then 1 else 0) := by
  by_cases hsucc : writeSucceeds s c = true
  · obtain ⟨hs, hst⟩ := (writeSucceeds_iff s c).mp hsucc
    rw [applyWrite_of_ok s c hs hst, hsucc]
    rfl
  · rw [applyWrite_of_fail s c (by simpa using hsucc)]
    simp [hsucc]

/-! ### Trace-level accounting lemmas -/

lemma execWrites_counter (s : ContractState) (cs : List WriteCall) :
    (execWrites s cs).verificationCounter =
      s.verificationCounter + countSuccessful s cs := by
  induction cs generalizing s with
  | nil => rfl
  | cons c cs ih =>
      show (execWrites (applyWrite s c) cs).verificationCounter = _
      rw [ih (applyWrite s c), applyWrite_counter]
      simp [countSuccessful]
      omega

lemma execWrites_append (s : ContractState) (cs ds : List WriteCall) :
    execWrites s (cs ++ ds) = execWrites (execWrites s cs) ds := by
  simp [execWrites, List.foldl_append]

lemma applyWrite_timestamps (s : ContractState) (c : WriteCall) (k : Nat) :
    (applyWrite s c).verificationTimestamps k =
      s.verificationTimestamps k ++
        (if writeSucceeds s c && (c.user == k) then [c.blockTimestamp] else []) := by
  by_cases hsucc : writeSucceeds s c = true
  · obtain ⟨hs, hst⟩ := (writeSucceeds_iff s c).mp hsucc
    rw [applyWrite_of_ok s c hs hst, writeEffect_timestamps, hsucc]
    by_cases hk : k = c.user
    · simp [hk]
    · have : ¬ (c.user == k) = true := by
        simpa using fun hh => hk hh.symm
      simp [hk, this]
  · rw [applyWrite_of_fail s c (by simpa using hsucc)]
    simp [hsucc]

lemma applyWrite_statuses (s : ContractState) (c : WriteCall) (k : Nat) :
    (applyWrite s c).verificationStatuses k =
      s.verificationStatuses k ++
        (if writeSucceeds s c && (c.user == k) then [c.status] else []) := by
  by_cases hsucc : writeSucceeds s c = true
  · obtain ⟨hs, hst⟩ := (writeSucceeds_iff s c).mp hsucc
    rw [applyWrite_of_ok s c hs hst, writeEffect_statuses, hsucc]
    by_cases hk : k = c.user
    · simp [hk]
    · have : ¬ (c.user == k) = true := by
        simpa using fun hh => hk hh.symm
      simp [hk, this]
  · rw [applyWrite_of_fail s c (by simpa using hsucc)]
    simp [hsucc]

lemma applyWrite_scores (s : ContractState) (c : WriteCall) (k : Nat) :
    (applyWrite s c).verificationConfidenceScores k =
      s.verificationConfidenceScores k ++
        (if writeSucceeds s c && (c.user == k) then [c.confidenceScore] else []) := by
  by_cases hsucc : writeSucceeds s c = true
  · obtain ⟨hs, hst⟩ := (writeSucceeds_iff s c).mp hsucc
    rw [applyWrite_of_ok s c hs hst, writeEffect_scores, hsucc]
    by_cases hk : k = c.user
    · simp [hk]
    · have : ¬ (c.user == k) = true := by
        simpa using fun hh => hk hh.symm
      simp [hk, this]
  · rw [applyWrite_of_fail s c (by simpa using hsucc)]
    simp [hsucc]

lemma execWrites_timestamps (k : Nat) (s : ContractState) (cs : List WriteCall) :
    (execWrites s cs).verificationTimestamps k =
      s.verificationTimestamps k ++ (successfulWritesTo k s cs).map (·.1) := by
  induction cs generalizing s with
  | nil => simp [execWrites, successfulWritesTo]
  | cons c cs ih =>
      show (execWrites (applyWrite s c) cs).verificationTimestamps k = _
      rw [ih (applyWrite s c), applyWrite_timestamps]
      by_cases hcond : (writeSucceeds s c && (c.user == k)) = true <;>
        simp [successfulWritesTo, hcond]

lemma execWrites_statuses (k : Nat) (s : ContractState) (cs : List WriteCall) :
    (execWrites s cs).verificationStatuses k =
      s.verificationStatuses k ++ (successfulWritesTo k s cs).map (·.2.1) := by
  induction cs generalizing s with
  | nil => simp [execWrites, successfulWritesTo]
  | cons c cs ih =>
      show (execWrites (applyWrite s c) cs).verificationStatuses k = _
      rw [ih (applyWrite s c), applyWrite_statuses]
      by_cases hcond : (writeSucceeds s c && (c.user == k)) = true <;>
        simp [successfulWritesTo, hcond]

lemma execWrites_scores (k : Nat) (s : ContractState) (cs : List WriteCall) :
    (execWrites s cs).verificationConfidenceScores k =
      s.verificationConfidenceScores k ++ (successfulWritesTo k s cs).map (·.2.2) := by
  induction cs generalizing s with
  | nil => simp [execWrites, successfulWritesTo]
  | cons c cs ih =>
      show (execWrites (applyWrite s c) cs).verificationConfidenceScores k = _
      rw [ih (applyWrite s c), applyWrite_scores]
      by_cases hcond : (writeSucceeds s c && (c.user == k)) = true <;>
        simp [successfulWritesTo, hcond]

lemma applyWrite_verifications_of_not_target (s : ContractState) (c : WriteCall)
    (k : Nat) (hcond : (writeSucceeds s c && (c.user == k)) = false) :
    (applyWrite s c).verifications k = s.verifications k := by
  by_cases hsucc : writeSucceeds s c = true
  · obtain ⟨hs, hst⟩ := (writeSucceeds_iff s c).mp hsucc
    rw [applyWrite_of_ok s c hs hst]
    have hk : k ≠ c.user := by
      intro hkk
      rw [hsucc, hkk] at hcond
      simp at hcond
    exact writeEffect_verifications_other s c.blockTimestamp c.user c.status
      c.attestationHash c.confidenceScore k hk
  · rw [applyWrite_of_fail s c (by simpa using hsucc)]

lemma execWrites_verifications_of_no_write (k : Nat) (s : ContractState)
    (cs : List WriteCall) (hnone : successfulWritesTo k s cs = []) :
    (execWrites s cs).verifications k = s.verifications k := by
  induction cs generalizing s with
  | nil => rfl
  | cons c cs ih =>
      unfold successfulWritesTo at hnone
      rw [List.append_eq_nil] at hnone
      obtain ⟨hhead, htail⟩ := hnone
      have hcond : (writeSucceeds s c && (c.user == k)) = false := by
        by_cases hc : (writeSucceeds s c && (c.user == k)) = true
        · rw [if_pos hc] at hhead; simp at hhead
        · simpa using hc
      show (execWrites (applyWrite s c) cs).verifications k = _
      rw [ih (applyWrite s c) htail,
        applyWrite_verifications_of_not_target s c k hcond]

/-! ### Sample concrete inputs used by witnesses and counterexamples -/

/-- A freshly deployed contract with owner address `1` (this is exactly the
state `deployContract 1` returns). -/
def sampleState : ContractState where
  owner := 1
  verificationCounter := 0
  verifications := fun _ => Verification.zero
  verificationTimestamps := fun _ => []
  verificationStatuses := fun _ => []
  verificationConfidenceScores := fun _ => []

/-- An authorized, valid write: owner `1` sets key `5` to VERIFIED at
timestamp `10`. -/
def sampleCall : WriteCall := ⟨1, 10, 5, 1, "h1", 90⟩

/-- A write attempt by the non-owner address `2`. -/
def intruderCall : WriteCall := ⟨2, 10, 5, 1, "h2", 50⟩

/-! ### Claim theorems -/

/-- C1: for every authorized caller and every status code in `{0,1,2}`, a
successful `updateVerification` call, as one atomic effect, overwrites the
record for `key` with the given status, attestation reference, confidence
score and the current timestamp, appends exactly one history row for `key`,
and increments the global counter by exactly one; the single resulting
state carries all of these effects together. -/
theorem updateVerification_success_total_effect (s : ContractState)
    (c : WriteCall) (hauth : c.sender = s.owner) (hst : c.status ≤ 2) :
    updateVerification s c.sender c.blockTimestamp c.user c.status
        c.attestationHash c.confidenceScore = .ok (applyWrite s c) ∧
    getVerificationStatus (applyWrite s c) c.user =
      (c.status, c.attestationHash, c.blockTimestamp, c.confidenceScore) ∧
    getVerificationHistory (applyWrite s c) c.user =
      ((getVerificationHistory s c.user).1 ++ [c.blockTimestamp],
       (getVerificationHistory s c.user).2.1 ++ [c.status],
       (getVerificationHistory s c.user).2.2 ++ [c.confidenceScore]) ∧
    getVerificationCount (applyWrite s c) = getVerificationCount s + 1 := by
  rw [applyWrite_of_ok s c hauth hst]
  refine ⟨updateVerification_ok s c.sender c.blockTimestamp c.user c.status
    c.attestationHash c.confidenceScore hauth hst, ?_, ?_, ?_⟩
  · rw [getVerificationStatus, writeEffect_verifications_self]
  · simp [getVerificationHistory, writeEffect_timestamps, writeEffect_statuses,
      writeEffect_scores]
  · rfl

/-- Witness for C1 at the concrete state `sampleState` and call `sampleCall`. -/
theorem updateVerification_success_total_effect_witness :
    updateVerification sampleState sampleCall.sender sampleCall.blockTimestamp
        sampleCall.user sampleCall.status sampleCall.attestationHash
        sampleCall.confidenceScore = .ok (applyWrite sampleState sampleCall) ∧
    getVerificationStatus (applyWrite sampleState sampleCall) sampleCall.user =
      (sampleCall.status, sampleCall.attestationHash, sampleCall.blockTimestamp,
        sampleCall.confidenceScore) ∧
    getVerificationHistory (applyWrite sampleState sampleCall) sampleCall.user =
      ((getVerificationHistory sampleState sampleCall.user).1 ++
          [sampleCall.blockTimestamp],
       (getVerificationHistory sampleState sampleCall.user).2.1 ++
          [sampleCall.status],
       (getVerificationHistory sampleState sampleCall.user).2.2 ++
          [sampleCall.confidenceScore]) ∧
    getVerificationCount (applyWrite sampleState sampleCall) =
      getVerificationCount sampleState + 1 :=
  updateVerification_success_total_effect sampleState sampleCall rfl (by decide)

/-- C3: for every caller that is not the owner and all arguments, the write
attempt fails with `Unauthorized`, and for every key `getStatus`,
`getHistory` and `getCount` are unchanged by the failed call. -/
theorem updateVerification_unauthorized_no_state_change (s : ContractState)
    (c : WriteCall) (hns : c.sender ≠ s.owner) :
    updateVerification s c.sender c.blockTimestamp c.user c.status
        c.attestationHash c.confidenceScore = .error .unauthorized ∧
    ∀ k, getVerificationStatus (applyWrite s c) k = getVerificationStatus s k ∧
      getVerificationHistory (applyWrite s c) k = getVerificationHistory s k ∧
      getVerificationCount (applyWrite s c) = getVerificationCount s := by
  have herr := updateVerification_unauthorized s c.sender c.blockTimestamp c.user
    c.status c.attestationHash c.confidenceScore hns
  have hfail : writeSucceeds s c = false := by
    unfold writeSucceeds
    rw [herr]
  rw [applyWrite_of_fail s c hfail]
  exact ⟨herr, fun k => ⟨rfl, rfl, rfl⟩⟩

/-- Witness for C3: the non-owner address `2` attempts a write against
`sampleState` (owner `1`). -/
theorem updateVerification_unauthorized_no_state_change_witness :
    updateVerification sampleState intruderCall.sender
        intruderCall.blockTimestamp intruderCall.user intruderCall.status
        intruderCall.attestationHash intruderCall.confidenceScore =
      .error .unauthorized ∧
    ∀ k, getVerificationStatus (applyWrite sampleState intruderCall) k =
        getVerificationStatus sampleState k ∧
      getVerificationHistory (applyWrite sampleState intruderCall) k =
        getVerificationHistory sampleState k ∧
      getVerificationCount (applyWrite sampleState intruderCall) =
        getVerificationCount sampleState :=
  updateVerification_unauthorized_no_state_change sampleState intruderCall
    (by decide)

/-- C7: a successful write to one key leaves the current record and the
history of every other key unchanged. -/
theorem successful_write_frames_other_keys (s : ContractState) (c : WriteCall)
    (k2 : Nat) (_hsucc : writeSucceeds s c = true) (hk : c.user ≠ k2) :
    getVerificationStatus (applyWrite s c) k2 = getVerificationStatus s k2 ∧
    getVerificationHistory (applyWrite s c) k2 = getVerificationHistory s k2 := by
  have hcond : (writeSucceeds s c && (c.user == k2)) = false := by
    simp [hk]
  constructor
  · rw [getVerificationStatus, getVerificationStatus,
      applyWrite_verifications_of_not_target s c k2 hcond]
  · rw [getVerificationHistory, getVerificationHistory,
      applyWrite_timestamps, applyWrite_statuses, applyWrite_scores, hcond]
    simp

/-- Witness for C7: the successful write `sampleCall` (key `5`) leaves
key `7` untouched. -/
theorem successful_write_frames_other_keys_witness :
    getVerificationStatus (applyWrite sampleState sampleCall) 7 =
      getVerificationStatus sampleState 7 ∧
    getVerificationHistory (applyWrite sampleState sampleCall) 7 =
      getVerificationHistory sampleState 7 :=
  successful_write_frames_other_keys sampleState sampleCall 7 (by decide)
    (by decide)

lemma deployContract_ok_elim (o : Nat) (s0 : ContractState)
    (hdep : deployContract o = .ok s0) :
    s0.owner = o ∧ s0.verificationCounter = 0 ∧
    (∀ k, s0.verifications k = Verification.zero) ∧
    (∀ k, s0.verificationTimestamps k = []) ∧
    (∀ k, s0.verificationStatuses k = []) ∧
    (∀ k, s0.verificationConfidenceScores k = []) := by
  unfold deployContract at hdep
  by_cases ho : o = 0
  · rw [if_pos ho] at hdep
    exact absurd hdep (by simp)
  · rw [if_neg ho] at hdep
    injection hdep with hdep
    subst hdep
    exact ⟨rfl, rfl, fun _ => rfl, fun _ => rfl, fun _ => rfl, fun _ => rfl⟩

/-- C4: for every key that receives no successful write in the transaction
sequence after deployment, `getStatus` returns the zero-value record
(UNVERIFIED = 0, empty reference, timestamp 0, score 0) and `getHistory`
returns empty sequences; both reads are total functions, so they never
fail. -/
theorem neverWritten_getStatus_zero_getHistory_empty (o : Nat)
    (s0 : ContractState) (cs : List WriteCall) (k : Nat)
    (hdep : deployContract o = .ok s0)
    (hnone : successfulWritesTo k s0 cs = []) :
    getVerificationStatus (execWrites s0 cs) k = (0, "", 0, 0) ∧
    getVerificationHistory (execWrites s0 cs) k = ([], [], []) := by
  obtain ⟨-, -, hver, hts, hst, hsc⟩ := deployContract_ok_elim o s0 hdep
  constructor
  · rw [getVerificationStatus, execWrites_verifications_of_no_write k s0 cs hnone,
      hver k]
    rfl
  · rw [getVerificationHistory, execWrites_timestamps, execWrites_statuses,
      execWrites_scores, hnone, hts k, hst k, hsc k]
    rfl

/-- Witness for C4: after deployment with owner `1` and one unauthorized
(hence unsuccessful) write attempt, key `5` still reads as the zero record
with empty history. -/
theorem neverWritten_getStatus_zero_getHistory_empty_witness :
    getVerificationStatus (execWrites sampleState [intruderCall]) 5 =
      (0, "", 0, 0) ∧
    getVerificationHistory (execWrites sampleState [intruderCall]) 5 =
      ([], [], []) :=
  neverWritten_getStatus_zero_getHistory_empty 1 sampleState [intruderCall] 5
    rfl (by decide)

/-- C5: for every key and every transaction sequence after deployment,
`getHistory` returns exactly one row per successful write to that key, in
the order the writes were applied (oldest first), and each row carries the
timestamp, status code and confidence score of its write. -/
theorem getHistory_matches_successful_writes (o : Nat) (s0 : ContractState)
    (cs : List WriteCall) (k : Nat) (hdep : deployContract o = .ok s0) :
    getVerificationHistory (execWrites s0 cs) k =
      ((successfulWritesTo k s0 cs).map (·.1),
       (successfulWritesTo k s0 cs).map (·.2.1),
       (successfulWritesTo k s0 cs).map (·.2.2)) := by
  obtain ⟨-, -, -, hts, hst, hsc⟩ := deployContract_ok_elim o s0 hdep
  rw [getVerificationHistory, execWrites_timestamps, execWrites_statuses,
    execWrites_scores, hts k, hst k, hsc k]
  simp

/-- Witness for C5: deployment with owner `1` followed by the successful
write `sampleCall` and a failed intruder write. -/
theorem getHistory_matches_successful_writes_witness :
    getVerificationHistory (execWrites sampleState [sampleCall, intruderCall]) 5 =
      ((successfulWritesTo 5 sampleState [sampleCall, intruderCall]).map (·.1),
       (successfulWritesTo 5 sampleState [sampleCall, intruderCall]).map (·.2.1),
       (successfulWritesTo 5 sampleState [sampleCall, intruderCall]).map (·.2.2)) :=
  getHistory_matches_successful_writes 1 sampleState [sampleCall, intruderCall]
    5 rfl

/-- C6: in every state reachable from deployment, `getCount` equals the
number of successful writes performed across all keys since construction,
and it is monotonically non-decreasing along any continuation of the
transaction sequence (failed writes and reads leave it unchanged, each
successful write adds one, as accounted by `countSuccessful`). -/
theorem getCount_counts_successful_writes_monotone (o : Nat)
    (s0 : ContractState) (cs ds : List WriteCall)
    (hdep : deployContract o = .ok s0) :
    getVerificationCount (execWrites s0 cs) = countSuccessful s0 cs ∧
    getVerificationCount (execWrites s0 cs) ≤
      getVerificationCount (execWrites s0 (cs ++ ds)) := by
  obtain ⟨-, hcnt, -, -, -, -⟩ := deployContract_ok_elim o s0 hdep
  have hbase : getVerificationCount (execWrites s0 cs) = countSuccessful s0 cs := by
    rw [getVerificationCount, execWrites_counter, hcnt, Nat.zero_add]
  refine ⟨hbase, ?_⟩
  rw [execWrites_append]
  show _ ≤ (execWrites (execWrites s0 cs) ds).verificationCounter
  rw [execWrites_counter]
  exact Nat.le_add_right _ _

/-- Witness for C6: owner `1`, one successful write, then one failed write
appended. -/
theorem getCount_counts_successful_writes_monotone_witness :
    getVerificationCount (execWrites sampleState [sampleCall]) =
      countSuccessful sampleState [sampleCall] ∧
    getVerificationCount (execWrites sampleState [sampleCall]) ≤
      getVerificationCount (execWrites sampleState ([sampleCall] ++ [intruderCall])) :=
  getCount_counts_successful_writes_monotone 1 sampleState [sampleCall]
    [intruderCall] rfl

/-- C10: in every state reachable from deployment and for every key, the
three per-key history arrays (timestamps, statuses, confidence scores) have
equal length, so `getVerificationHistory` always returns three sequences of
the same length. -/
theorem history_arrays_equal_length_invariant (o : Nat) (s0 : ContractState)
    (cs : List WriteCall) (k : Nat) (hdep : deployContract o = .ok s0) :
    (getVerificationHistory (execWrites s0 cs) k).1.length =
      (getVerificationHistory (execWrites s0 cs) k).2.1.length ∧
    (getVerificationHistory (execWrites s0 cs) k).2.1.length =
      (getVerificationHistory (execWrites s0 cs) k).2.2.length := by
  obtain ⟨-, -, -, hts, hst, hsc⟩ := deployContract_ok_elim o s0 hdep
  rw [getVerificationHistory, execWrites_timestamps, execWrites_statuses,
    execWrites_scores, hts k, hst k, hsc k]
  simp

/-- Witness for C10: owner `1`, one successful and one failed write, key `5`. -/
theorem history_arrays_equal_length_invariant_witness :
    (getVerificationHistory (execWrites sampleState [sampleCall, intruderCall]) 5).1.length =
      (getVerificationHistory (execWrites sampleState [sampleCall, intruderCall]) 5).2.1.length ∧
    (getVerificationHistory (execWrites sampleState [sampleCall, intruderCall]) 5).2.1.length =
      (getVerificationHistory (execWrites sampleState [sampleCall, intruderCall]) 5).2.2.length :=
  history_arrays_equal_length_invariant 1 sampleState [sampleCall, intruderCall]
    5 rfl

/-- An authority write attempt with the out-of-range status code `3`. -/
def ownerBadStatusCall : WriteCall := ⟨1, 10, 5, 3, "h3", 10⟩

/-- A repeat of `sampleCall` with the same (status, attestationHash,
confidenceScore) triple but a later block timestamp. -/
def repeatCall : WriteCall := ⟨1, 20, 5, 1, "h1", 90⟩

/-- Counterexample to C2 as stated: a write attempt with statusCode `3 > 2`
by the non-owner address `2` fails with `Unauthorized` (the `onlyOwner`
modifier runs before the status check), not with `InvalidStatus`, so not
every caller's out-of-range write fails with `InvalidStatus`. -/
theorem badStatus_nonowner_fails_unauthorized_cex :
    2 < (3:Nat) ∧
    updateVerification sampleState 2 10 5 3 "h3" 10 = .error .unauthorized ∧
    updateVerification sampleState 2 10 5 3 "h3" 10 ≠ .error .invalidStatus := by
  refine ⟨by decide, rfl, ?_⟩
  intro hcontra
  rw [show updateVerification sampleState 2 10 5 3 "h3" 10 =
    .error .unauthorized from rfl] at hcontra
  simp at hcontra

/-- C2 (amended): for every caller and every statusCode greater than 2, the
write attempt fails — with `InvalidStatus` when the caller is the authority
and with `Unauthorized` otherwise — and leaves the current record, the
history, and the counter of every key exactly as they were before the
call. -/
theorem updateVerification_badStatus_rejected_state_unchanged
    (s : ContractState) (c : WriteCall) (hst : 2 < c.status) :
    (∃ e, updateVerification s c.sender c.blockTimestamp c.user c.status
        c.attestationHash c.confidenceScore = .error e) ∧
    (c.sender = s.owner →
      updateVerification s c.sender c.blockTimestamp c.user c.status
        c.attestationHash c.confidenceScore = .error .invalidStatus) ∧
    (c.sender ≠ s.owner →
      updateVerification s c.sender c.blockTimestamp c.user c.status
        c.attestationHash c.confidenceScore = .error .unauthorized) ∧
    ∀ k, getVerificationStatus (applyWrite s c) k = getVerificationStatus s k ∧
      getVerificationHistory (applyWrite s c) k = getVerificationHistory s k ∧
      getVerificationCount (applyWrite s c) = getVerificationCount s := by
  have hfail : writeSucceeds s c = false := by
    by_cases hs : c.sender = s.owner
    · unfold writeSucceeds
      rw [updateVerification_invalidStatus s c.sender c.blockTimestamp c.user
        c.status c.attestationHash c.confidenceScore hs hst]
    · unfold writeSucceeds
      rw [updateVerification_unauthorized s c.sender c.blockTimestamp c.user
        c.status c.attestationHash c.confidenceScore hs]
  rw [applyWrite_of_fail s c hfail]
  refine ⟨?_,
    fun hs => updateVerification_invalidStatus s c.sender c.blockTimestamp
      c.user c.status c.attestationHash c.confidenceScore hs hst,
    fun hs => updateVerification_unauthorized s c.sender c.blockTimestamp
      c.user c.status c.attestationHash c.confidenceScore hs,
    fun k => ⟨rfl, rfl, rfl⟩⟩
  by_cases hs : c.sender = s.owner
  · exact ⟨.invalidStatus, updateVerification_invalidStatus s c.sender
      c.blockTimestamp c.user c.status c.attestationHash c.confidenceScore hs hst⟩
  · exact ⟨.unauthorized, updateVerification_unauthorized s c.sender
      c.blockTimestamp c.user c.status c.attestationHash c.confidenceScore hs⟩

/-- Witness for C2 (amended): the authority submits status code `3`. -/
theorem updateVerification_badStatus_rejected_state_unchanged_witness :
    (∃ e, updateVerification sampleState ownerBadStatusCall.sender
        ownerBadStatusCall.blockTimestamp ownerBadStatusCall.user
        ownerBadStatusCall.status ownerBadStatusCall.attestationHash
        ownerBadStatusCall.confidenceScore = .error e) ∧
    (ownerBadStatusCall.sender = sampleState.owner →
      updateVerification sampleState ownerBadStatusCall.sender
        ownerBadStatusCall.blockTimestamp ownerBadStatusCall.user
        ownerBadStatusCall.status ownerBadStatusCall.attestationHash
        ownerBadStatusCall.confidenceScore = .error .invalidStatus) ∧
    (ownerBadStatusCall.sender ≠ sampleState.owner →
      updateVerification sampleState ownerBadStatusCall.sender
        ownerBadStatusCall.blockTimestamp ownerBadStatusCall.user
        ownerBadStatusCall.status ownerBadStatusCall.attestationHash
        ownerBadStatusCall.confidenceScore = .error .unauthorized) ∧
    ∀ k, getVerificationStatus (applyWrite sampleState ownerBadStatusCall) k =
        getVerificationStatus sampleState k ∧
      getVerificationHistory (applyWrite sampleState ownerBadStatusCall) k =
        getVerificationHistory sampleState k ∧
      getVerificationCount (applyWrite sampleState ownerBadStatusCall) =
        getVerificationCount sampleState :=
  updateVerification_badStatus_rejected_state_unchanged sampleState
    ownerBadStatusCall (by decide)

/-- Counterexample to C8 as stated: two consecutive successful writes with
the same (status, attestationRef, confidenceScore) triple but different
block timestamps leave different current records — `lastChecked` moves to
the second write's timestamp — so the record returned by `getStatus` is not
identical after both writes. -/
theorem same_triple_twice_record_not_identical_cex :
    writeSucceeds sampleState sampleCall = true ∧
    writeSucceeds (applyWrite sampleState sampleCall) repeatCall = true ∧
    sampleCall.user = repeatCall.user ∧
    sampleCall.status = repeatCall.status ∧
    sampleCall.attestationHash = repeatCall.attestationHash ∧
    sampleCall.confidenceScore = repeatCall.confidenceScore ∧
    getVerificationStatus (applyWrite (applyWrite sampleState sampleCall)
        repeatCall) 5 ≠
      getVerificationStatus (applyWrite sampleState sampleCall) 5 := by
  refine ⟨rfl, rfl, rfl, rfl, rfl, rfl, ?_⟩
  decide

/-- C8 (amended): two consecutive successful writes with the same (status,
attestationRef, confidenceScore) triple append two distinct HistoryEntry
rows (carrying each write's own timestamp), and the current record after
both writes agrees with the record after the first in status, attestation
reference and confidence score, while its `lastChecked` equals the second
write's timestamp. -/
theorem same_triple_twice_two_rows_record_agrees (s : ContractState)
    (c1 c2 : WriteCall) (huser : c1.user = c2.user)
    (hstat : c1.status = c2.status) (hhash : c1.attestationHash = c2.attestationHash)
    (hscore : c1.confidenceScore = c2.confidenceScore)
    (h1 : writeSucceeds s c1 = true)
    (h2 : writeSucceeds (applyWrite s c1) c2 = true) :
    getVerificationHistory (applyWrite (applyWrite s c1) c2) c1.user =
      ((getVerificationHistory s c1.user).1 ++
          [c1.blockTimestamp, c2.blockTimestamp],
       (getVerificationHistory s c1.user).2.1 ++ [c1.status, c1.status],
       (getVerificationHistory s c1.user).2.2 ++
          [c1.confidenceScore, c1.confidenceScore]) ∧
    (getVerificationStatus (applyWrite (applyWrite s c1) c2) c1.user).1 =
      (getVerificationStatus (applyWrite s c1) c1.user).1 ∧
    (getVerificationStatus (applyWrite (applyWrite s c1) c2) c1.user).2.1 =
      (getVerificationStatus (applyWrite s c1) c1.user).2.1 ∧
    (getVerificationStatus (applyWrite (applyWrite s c1) c2) c1.user).2.2.2 =
      (getVerificationStatus (applyWrite s c1) c1.user).2.2.2 ∧
    (getVerificationStatus (applyWrite (applyWrite s c1) c2) c1.user).2.2.1 =
      c2.blockTimestamp := by
  obtain ⟨hs1, hst1⟩ := (writeSucceeds_iff s c1).mp h1
  obtain ⟨hs2, hst2⟩ := (writeSucceeds_iff (applyWrite s c1) c2).mp h2
  rw [applyWrite_owner] at hs2
  rw [applyWrite_of_ok s c1 hs1 hst1] at h2 ⊢
  have hs2' : c2.sender = (writeEffect s c1.blockTimestamp c1.user c1.status
      c1.attestationHash c1.confidenceScore).owner := hs2
  rw [applyWrite_of_ok _ c2 hs2' hst2]
  simp [getVerificationHistory, getVerificationStatus, writeEffect, huser,
    hstat, hhash, hscore]

/-- Witness for C8 (amended): `sampleCall` followed by `repeatCall`. -/
theorem same_triple_twice_two_rows_record_agrees_witness :
    getVerificationHistory (applyWrite (applyWrite sampleState sampleCall)
        repeatCall) sampleCall.user =
      ((getVerificationHistory sampleState sampleCall.user).1 ++
          [sampleCall.blockTimestamp, repeatCall.blockTimestamp],
       (getVerificationHistory sampleState sampleCall.user).2.1 ++
          [sampleCall.status, sampleCall.status],
       (getVerificationHistory sampleState sampleCall.user).2.2 ++
          [sampleCall.confidenceScore, sampleCall.confidenceScore]) ∧
    (getVerificationStatus (applyWrite (applyWrite sampleState sampleCall)
        repeatCall) sampleCall.user).1 =
      (getVerificationStatus (applyWrite sampleState sampleCall)
        sampleCall.user).1 ∧
    (getVerificationStatus (applyWrite (applyWrite sampleState sampleCall)
        repeatCall) sampleCall.user).2.1 =
      (getVerificationStatus (applyWrite sampleState sampleCall)
        sampleCall.user).2.1 ∧
    (getVerificationStatus (applyWrite (applyWrite sampleState sampleCall)
        repeatCall) sampleCall.user).2.2.2 =
      (getVerificationStatus (applyWrite sampleState sampleCall)
        sampleCall.user).2.2.2 ∧
    (getVerificationStatus (applyWrite (applyWrite sampleState sampleCall)
        repeatCall) sampleCall.user).2.2.1 = repeatCall.blockTimestamp :=
  same_triple_twice_two_rows_record_agrees sampleState sampleCall repeatCall
    rfl rfl rfl rfl rfl rfl

/-- C9: construction fails with `InvalidOwner` exactly when the supplied
owner address is the zero address; on success exactly that address is the
owner, and it remains the owner across every sequence of store operations
(none of the store's operations changes the owner). -/
theorem deploy_invalidOwner_iff_zero_and_owner_fixed (o : Nat) :
    (deployContract o = .error .invalidOwner ↔ o = 0) ∧
    ∀ s0, deployContract o = .ok s0 →
      s0.owner = o ∧ ∀ cs, (execWrites s0 cs).owner = o := by
  constructor
  · constructor
    · intro h
      by_contra ho
      unfold deployContract at h
      rw [if_neg ho] at h
      exact absurd h (by simp)
    · intro ho
      unfold deployContract
      rw [if_pos ho]
  · intro s0 hdep
    obtain ⟨hown, -, -, -, -, -⟩ := deployContract_ok_elim o s0 hdep
    exact ⟨hown, fun cs => by rw [execWrites_owner, hown]⟩

/-- Witness for C9: deployment with owner `1` yields `sampleState`, whose
owner stays `1` under any transaction sequence (shown here applied to the
ok branch at the concrete deployment). -/
theorem deploy_invalidOwner_iff_zero_and_owner_fixed_witness :
    sampleState.owner = 1 ∧ ∀ cs, (execWrites sampleState cs).owner = 1 :=
  (deploy_invalidOwner_iff_zero_and_owner_fixed 1).2 sampleState rfl
